import Mathlib

/-!
Verification development for the string-analyzer service
(`hng-stage1-node`).  The repository contains several variants of the
same Express server:

* `server.js` (first document, lines 1-282) — the primary variant:
  in-memory store, validated POST with 409 conflict, structured GET
  filtering with validation, natural-language filter endpoint with
  negated-palindrome and first-vowel rules.
* `server.js` (second document, lines 283-438) — an older variant whose
  POST has no conflict check (prefixed `v2` below).
* `unnamed/part_000` — a variant that hashes the trimmed, lower-cased
  value (case-insensitive identity), has a simpler translator without
  negation or the strict `longer than` adjustment (prefixed `p0` below).

Every definition below is a direct shallow embedding of one of those
source functions; JavaScript strings are modelled as Lean `String`
(ASCII case folding via `Char.toLower`, which agrees with
`String.prototype.toLowerCase` on ASCII), JavaScript numbers as
`Nat`/`Int`, the `Map` store as an insertion-ordered association list,
and `crypto.createHash("sha256")` as an executable SHA-256 over the
UTF-8 bytes of the input.  Wall-clock fields (`created_at`) and the
`character_frequency_map` property are omitted: no claim touches them
and no control flow depends on them.
-/

namespace StringAnalyzer

/-! ## SHA-256 (model of Node `crypto.createHash("sha256")`).
The bitwise operations act on 32-bit words represented as `Nat`
(explicit reduction modulo `2 ^ 32` where overflow matters). -/

def pow2_32 : Nat := 4294967296

def xor32 (a b : Nat) : Nat := Nat.xor a b

def and32 (a b : Nat) : Nat := Nat.land a b

/-- Bitwise complement of a 32-bit word. -/
def not32 (a : Nat) : Nat := Nat.xor (a % pow2_32) 4294967295

def add32 (a b : Nat) : Nat := (a + b) % pow2_32

/-- Right rotation of a 32-bit word by `k` bits. -/
def rotr (k a : Nat) : Nat := (a / 2 ^ k + (a % 2 ^ k) * 2 ^ (32 - k)) % pow2_32

def shr (k a : Nat) : Nat := a / 2 ^ k

def smallSigma0 (x : Nat) : Nat := xor32 (xor32 (rotr 7 x) (rotr 18 x)) (shr 3 x)

def smallSigma1 (x : Nat) : Nat := xor32 (xor32 (rotr 17 x) (rotr 19 x)) (shr 10 x)

def bigSigma0 (x : Nat) : Nat := xor32 (xor32 (rotr 2 x) (rotr 13 x)) (rotr 22 x)

def bigSigma1 (x : Nat) : Nat := xor32 (xor32 (rotr 6 x) (rotr 11 x)) (rotr 25 x)

def chF (e f g : Nat) : Nat := xor32 (and32 e f) (and32 (not32 e) g)

def majF (a b c : Nat) : Nat := xor32 (xor32 (and32 a b) (and32 a c)) (and32 b c)

def kConst : List Nat :=
  [1116352408, 1899447441, 3049323471, 3921009573, 961987163,
   1508970993, 2453635748, 2870763221, 3624381080, 310598401,
   607225278, 1426881987, 1925078388, 2162078206, 2614888103,
   3248222580, 3835390401, 4022224774, 264347078, 604807628,
   770255983, 1249150122, 1555081692, 1996064986, 2554220882,
   2821834349, 2952996808, 3210313671, 3336571891, 3584528711,
   113926993, 338241895, 666307205, 773529912, 1294757372,
   1396182291, 1695183700, 1986661051, 2177026350, 2456956037,
   2730485921, 2820302411, 3259730800, 3345764771, 3516065817,
   3600352804, 4094571909, 275423344, 430227734, 506948616,
   659060556, 883997877, 958139571, 1322822218, 1537002063,
   1747873779, 1955562222, 2024104815, 2227730452, 2361852424,
   2428436474, 2756734187, 3204031479, 3329325298]

def hInit : List Nat :=
  [1779033703, 3144134277, 1013904242, 2773480762,
   1359893119, 2600822924, 528734635, 1541459225]

/-- Extend a 16-word block to the 64-word message schedule. -/
def schedExtend : Nat → List Nat → List Nat
  | 0, w => w
  | k+1, w =>
      let n := w.length
      let t := add32 (add32 (smallSigma1 (w.getD (n - 2) 0)) (w.getD (n - 7) 0))
                     (add32 (smallSigma0 (w.getD (n - 15) 0)) (w.getD (n - 16) 0))
      schedExtend k (w ++ [t])

def roundStep (st : List Nat) (kw : Nat × Nat) : List Nat :=
  match st with
  | [a, b, c, d, e, f, g, h] =>
      let t1 := add32 h (add32 (bigSigma1 e) (add32 (chF e f g) (add32 kw.1 kw.2)))
      let t2 := add32 (bigSigma0 a) (majF a b c)
      [add32 t1 t2, a, b, c, add32 d t1, e, f, g]
  | _ => st

def compress (h : List Nat) (block : List Nat) : List Nat :=
  let w := schedExtend 48 block
  let st := (kConst.zip w).foldl roundStep h
  (h.zip st).map (fun p => add32 p.1 p.2)

def bytesToWords : List Nat → List Nat
  | b0 :: b1 :: b2 :: b3 :: rest =>
      (b0 * 16777216 + b1 * 65536 + b2 * 256 + b3) :: bytesToWords rest
  | _ => []

def chunk64F : Nat → List Nat → List (List Nat)
  | 0, _ => []
  | _, [] => []
  | k+1, l => bytesToWords (l.take 64) :: chunk64F k (l.drop 64)

def chunk64 (l : List Nat) : List (List Nat) := chunk64F l.length l

def padMsg (msg : List Nat) : List Nat :=
  let len := msg.length
  let zeros := (119 - len % 64) % 64
  let bitLen := 8 * len
  msg ++ [128] ++ List.replicate zeros 0 ++
    [bitLen / 2^56 % 256, bitLen / 2^48 % 256, bitLen / 2^40 % 256, bitLen / 2^32 % 256,
     bitLen / 2^24 % 256, bitLen / 2^16 % 256, bitLen / 2^8 % 256, bitLen % 256]

/-- Lower-case hex digit for a value below 16. -/
def hexChar (n : Nat) : Char :=
  if n < 10 then Char.ofNat (48 + n) else Char.ofNat (87 + n)

def wordHex (w : Nat) : List Char :=
  [hexChar (w / 2^28 % 16), hexChar (w / 2^24 % 16),
   hexChar (w / 2^20 % 16), hexChar (w / 2^16 % 16),
   hexChar (w / 2^12 % 16), hexChar (w / 2^8 % 16),
   hexChar (w / 2^4 % 16), hexChar (w % 16)]

/-- Hex-encoded SHA-256 digest of a byte sequence, as produced by
Node's `crypto.createHash("sha256").update(value).digest("hex")`. -/
def sha256Hex (msg : List Nat) : String :=
  let blocks := chunk64 (padMsg msg)
  let hFinal := blocks.foldl compress hInit
  ⟨(hFinal.map wordHex).foldr (fun a b => a ++ b) []⟩

/-- UTF-8 encoding of one code point (Node hashes the UTF-8 bytes of a
JavaScript string). -/
def utf8Char (c : Char) : List Nat :=
  let n := c.toNat
  if n < 128 then [n]
  else if n < 2048 then [192 + n / 64, 128 + n % 64]
  else if n < 65536 then [224 + n / 4096, 128 + n / 64 % 64, 128 + n % 64]
  else [240 + n / 262144, 128 + n / 4096 % 64, 128 + n / 64 % 64, 128 + n % 64]

def utf8 (s : String) : List Nat := s.data.foldr (fun c acc => utf8Char c ++ acc) []

/-! ## JavaScript string primitives -/

/-- Whitespace as recognized by `String.prototype.trim` and the regex
class `\s` (ASCII portion). -/
def isWS (c : Char) : Bool :=
  c == ' ' || c == '\t' || c == '\n' || c == '\r' || c == '\x0b' || c == '\x0c'

/-- Model of `value.trim()`. -/
def jsTrim (s : String) : String :=
  ⟨((s.data.dropWhile isWS).reverse.dropWhile isWS).reverse⟩

/-- Model of `value.toLowerCase()` (ASCII case folding). -/
def jsToLower (s : String) : String := ⟨s.data.map Char.toLower⟩

def isPrefL : List Char → List Char → Bool
  | [], _ => true
  | a :: as, bs =>
      match bs with
      | [] => false
      | b :: bt => a == b && isPrefL as bt

def hasSubL (needle : List Char) : List Char → Bool
  | [] => isPrefL needle []
  | c :: t => isPrefL needle (c :: t) || hasSubL needle t

/-- Model of `s.includes(sub)`. -/
def jsIncludes (s sub : String) : Bool := hasSubL sub.data s.data

/-- Pieces of a trimmed string split on runs of whitespace, dropping
empty pieces (for a trimmed argument this agrees with JavaScript
`s.split(/\s+/)`; the empty string is special-cased at call sites,
since in JavaScript `"".split(/\s+/)` is `[""]`). -/
def splitWSAux : List Char → List Char → List (List Char)
  | [], acc => if acc.isEmpty then [] else [acc.reverse]
  | c :: t, acc =>
      if isWS c then
        (if acc.isEmpty then splitWSAux t [] else acc.reverse :: splitWSAux t [])
      else splitWSAux t (c :: acc)

def splitWS (l : List Char) : List (List Char) := splitWSAux l []

/-- Numeric value of a digit string. -/
def natOfDigits (l : List Char) : Nat := l.foldl (fun n c => n * 10 + (c.toNat - 48)) 0

def digitsVal (l : List Char) : Option Nat :=
  let ds := l.takeWhile Char.isDigit
  if ds.isEmpty then none else some (natOfDigits ds)

/-- Model of `parseInt(s, 10)`: skip leading whitespace, optional sign,
then a maximal run of decimal digits; `none` models `NaN`. -/
def jsParseInt (s : String) : Option Int :=
  match s.data.dropWhile isWS with
  | '-' :: rest => (digitsVal rest).map (fun n => -(n : Int))
  | '+' :: rest => (digitsVal rest).map (fun n => (n : Int))
  | rest => (digitsVal rest).map (fun n => (n : Int))

/-! ## Data model (record and store) -/

/-- Derived properties of a stored string (`created_at` and
`character_frequency_map` omitted, see the header). -/
structure Props where
  length : Nat
  is_palindrome : Bool
  unique_characters : Nat
  word_count : Nat
  sha256_hash : String
  deriving DecidableEq, Repr

structure Record where
  id : String
  value : String
  properties : Props
  deriving DecidableEq, Repr

/-- The in-memory `Map` of the servers, as an insertion-ordered
association list from id to record. -/
abbrev Store := List (String × Record)

def mapHas (m : Store) (k : String) : Bool := m.any (fun p => p.1 == k)

def mapGet (m : Store) (k : String) : Option Record :=
  (m.find? (fun p => p.1 == k)).map (fun p => p.2)

/-- `Map.prototype.set`: replace in place if the key exists, else
append (JavaScript `Map` preserves insertion order). -/
def mapSet (m : Store) (k : String) (v : Record) : Store :=
  match m with
  | [] => [(k, v)]
  | (k', v') :: t => if k' == k then (k, v) :: t else (k', v') :: mapSet t k v

def mapDelete (m : Store) (k : String) : Store := m.filter (fun p => p.1 != k)

def mapValues (m : Store) : List Record := m.map (fun p => p.2)

def mapKeys (m : Store) : List String := m.map (fun p => p.1)

/-! ## Primary variant: `analyzeString` (server.js lines 34-62) -/

/-- Word count, server.js line 41:
`value.trim() === "" ? 0 : value.trim().split(/\s+/).length`. -/
def wordCount (value : String) : Nat :=
  if jsTrim value == "" then 0 else (splitWS (jsTrim value).data).length

/-- Shallow embedding of `analyzeString` (server.js lines 34-62):
hashes the value as given (no case folding), palindrome check on the
lower-cased value, unique characters over the raw value. -/
def analyzeString (value : String) : Record :=
  let lowerValue := jsToLower value
  let sha256_hash := sha256Hex (utf8 value)
  Record.mk sha256_hash value
    (Props.mk value.length
      (lowerValue.data == lowerValue.data.reverse)
      value.data.eraseDups.length
      (wordCount value)
      sha256_hash)

/-! ## Primary variant: POST /strings (server.js lines 65-91) -/

/-- The extracted `value` field of the request body. -/
inductive Body
  | missing
  | nonString
  | str (s : String)
  deriving DecidableEq

inductive PostResult
  | badRequest (msg : String)
  | unprocessable (msg : String)
  | conflict (msg : String)
  | created (r : Record)
  deriving DecidableEq

def isConflict : PostResult → Bool
  | .conflict _ => true
  | _ => false

/-- POST /strings of the primary variant (server.js lines 65-91). -/
def postStrings (body : Body) (store : Store) : PostResult × Store :=
  match body with
  | .missing => (.badRequest "Missing value field.", store)
  | .nonString => (.unprocessable "Invalid data type for value. Must be a string.", store)
  | .str value =>
      let trimmedValue := jsTrim value
      if trimmedValue == "" then (.badRequest "Value cannot be an empty string.", store)
      else
        let analyzed := analyzeString trimmedValue
        if mapHas store analyzed.id then
          (.conflict "String already exists in the system.", store)
        else
          (.created analyzed, mapSet store analyzed.id analyzed)

/-- GET /strings/:value of the primary variant (server.js lines
242-256): recompute the hash of the raw path parameter and look it up. -/
def getStringByValue (searchValue : String) (store : Store) : Option Record :=
  mapGet store (analyzeString searchValue).id

/-! ## Second server.js variant (lines 333-372), prefixed `v2` -/

/-- The analyzer of the second variant (server.js lines 333-358):
palindrome on the raw value, hash of the raw value, word count without
the empty-string guard (JavaScript `"".split(/\s+/)` is `[""]`). -/
def v2AnalyzeString (value : String) : Record :=
  let sha256_hash := sha256Hex (utf8 value)
  Record.mk sha256_hash value
    (Props.mk value.length
      (value.data == value.data.reverse)
      value.data.eraseDups.length
      (if jsTrim value == "" then 1 else (splitWS (jsTrim value).data).length)
      sha256_hash)

/-- POST /strings of the second variant (server.js lines 361-372):
NO conflict check — the record is stored unconditionally. -/
def v2Post (body : Body) (store : Store) : PostResult × Store :=
  match body with
  | .missing => (.badRequest "Missing or invalid value field.", store)
  | .nonString => (.badRequest "Missing or invalid value field.", store)
  | .str value =>
      if value == "" then (.badRequest "Missing or invalid value field.", store)
      else
        let analyzed := v2AnalyzeString value
        (.created analyzed, mapSet store analyzed.id analyzed)

/-! ## part_000 variant, prefixed `p0` -/

/-- Store key of part_000 (lines 49-51, 88-90, 213-215): SHA-256 of the
trimmed, lower-cased value. -/
def p0Key (value : String) : String := sha256Hex (utf8 (jsToLower (jsTrim value)))

/-- Word count of part_000 line 61: `cleaned.split(/\s+/).length` with
no empty-string guard (`"".split(/\s+/)` is `[""]`, length 1). -/
def p0WordCount (value : String) : Nat :=
  let cleaned := jsTrim value
  if cleaned == "" then 1 else (splitWS cleaned.data).length

/-- The record built inline by POST /strings of part_000 (lines 49-74):
palindrome and unique characters over the lower-cased cleaned value,
id is `p0Key`. -/
def p0Analyze (value : String) : Record :=
  let cleaned := jsTrim value
  let lower := jsToLower cleaned
  let hash := sha256Hex (utf8 lower)
  Record.mk hash cleaned
    (Props.mk cleaned.length
      (lower.data == lower.data.reverse)
      lower.data.eraseDups.length
      (p0WordCount value)
      hash)

/-- POST /strings of part_000 (lines 43-79). -/
def p0Post (body : Body) (store : Store) : PostResult × Store :=
  match body with
  | .missing => (.badRequest "Missing or invalid value field", store)
  | .nonString => (.badRequest "Missing or invalid value field", store)
  | .str value =>
      if value == "" then (.badRequest "Missing or invalid value field", store)
      else
        let r := p0Analyze value
        if mapHas store r.id then (.conflict "String already exists", store)
        else (.created r, mapSet store r.id r)

inductive FetchResult
  | badRequest
  | notFound
  | found (r : Record)
  deriving DecidableEq

/-- GET /strings/:value of part_000 (lines 82-98). -/
def p0Get (value : String) (store : Store) : FetchResult :=
  if value == "" then .badRequest
  else
    match mapGet store (p0Key value) with
    | some r => .found r
    | none => .notFound

/-- DELETE /strings/:value of part_000 (lines 205-225). -/
def p0Delete (value : String) (store : Store) : Option Store :=
  if value == "" then none
  else if mapHas store (p0Key value) then some (mapDelete store (p0Key value))
  else none

/-! ## Filter specifications and the filter engine -/

/-- A parsed filter specification; `none` fields do not constrain.
`min_length`/`max_length` are `Int` because the translator can produce
`N - 1 = -1` from "shorter than 0". -/
structure FilterSpec where
  is_palindrome : Option Bool
  word_count : Option Int
  min_length : Option Int
  max_length : Option Int
  contains_character : Option String
  value_contains : Option String
  deriving DecidableEq, Repr

def emptySpec : FilterSpec := FilterSpec.mk none none none none none none

/-- Record predicates used by the filter chains of server.js
(lines 110, 118, 126, 134, 143, 210, 213, 216, 219, 222, 225). -/
def palP (b : Bool) (r : Record) : Bool := r.properties.is_palindrome == b

/-- Exact word-count comparison on JavaScript numbers (`===`). -/
def wcIP (n : Int) (r : Record) : Bool := (r.properties.word_count : Int) == n

def minP (m : Int) (r : Record) : Bool := m ≤ (r.properties.length : Int)

def maxP (m : Int) (r : Record) : Bool := (r.properties.length : Int) ≤ m

/-- `s.value.toLowerCase().includes(c.toLowerCase())`. -/
def ccP (c : String) (r : Record) : Bool := jsIncludes (jsToLower r.value) (jsToLower c)

/-- `s.value.toLowerCase().includes(filters.value_contains)` — the
needle is used AS GIVEN, only the record value is lower-cased
(server.js line 225). -/
def vcP (v : String) (r : Record) : Bool := jsIncludes (jsToLower r.value) v

def optFilt {α : Type} (rs : List Record) (o : Option α) (p : α → Record → Bool) :
    List Record :=
  match o with
  | none => rs
  | some a => rs.filter (p a)

/-- The filter chain executed against the store snapshot (server.js
lines 207-226; part_000 lines 178-190 is the same chain without the
`value_contains` stage, which its translator never sets). -/
def applyFilters (f : FilterSpec) (rs : List Record) : List Record :=
  optFilt (optFilt (optFilt (optFilt (optFilt (optFilt rs
    f.is_palindrome palP)
    f.word_count wcIP)
    f.min_length minP)
    f.max_length maxP)
    f.contains_character ccP)
    f.value_contains vcP

/-- Lift a predicate over an optional filter field: an absent field
does not constrain. -/
def optP {α : Type} (o : Option α) (p : α → Record → Bool) (r : Record) : Bool :=
  match o with
  | none => true
  | some a => p a r

/-- Fully case-insensitive `value_contains` test (needle lower-cased
too) — the reading the claim asserts. -/
def vcCI (v : String) (r : Record) : Bool := jsIncludes (jsToLower r.value) (jsToLower v)

/-- Spec-side matcher, following the claim's words: conjunction of the
present predicates, inclusive bounds, exact word count, and BOTH
substring tests case-insensitive (needle lower-cased too). -/
def matchesSpec (f : FilterSpec) (r : Record) : Bool :=
  optP f.is_palindrome palP r &&
    (optP f.word_count wcIP r &&
      (optP f.min_length minP r &&
        (optP f.max_length maxP r &&
          (optP f.contains_character ccP r && optP f.value_contains vcCI r))))

/-- Amended spec-side matcher: identical except that the
`value_contains` needle is matched as given against the lower-cased
value, exactly as server.js line 225 does. -/
def matchesSpecA (f : FilterSpec) (r : Record) : Bool :=
  optP f.is_palindrome palP r &&
    (optP f.word_count wcIP r &&
      (optP f.min_length minP r &&
        (optP f.max_length maxP r &&
          (optP f.contains_character ccP r && optP f.value_contains vcP r))))

/-! ## Structured GET /strings (server.js lines 95-152 and part_000
lines 101-152) -/

/-- The raw query parameters of GET /strings (absent parameter =
`none`; Express delivers each present parameter as a string). -/
structure QueryParams where
  is_palindrome : Option String
  min_length : Option String
  max_length : Option String
  word_count : Option String
  contains_character : Option String
  deriving DecidableEq, Repr

def msgPal : String := "Invalid value for is_palindrome. Must be true or false."

def msgNum (name : String) : String :=
  "Invalid value for " ++ name ++ ". Must be a non-negative integer."

def msgChar : String := "Invalid value for contains_character. Must be a single character string."

def filtPal (o : Option String) (rs : List Record) : Except String (List Record) :=
  match o with
  | none => .ok rs
  | some v =>
      let s := jsToLower v
      if s == "true" || s == "false" then .ok (rs.filter (palP (s == "true")))
      else .error msgPal

def filtMin (o : Option String) (rs : List Record) : Except String (List Record) :=
  match o with
  | none => .ok rs
  | some v =>
      match jsParseInt v with
      | none => .error (msgNum "min_length")
      | some n => if n < 0 then .error (msgNum "min_length") else .ok (rs.filter (minP n))

def filtMax (o : Option String) (rs : List Record) : Except String (List Record) :=
  match o with
  | none => .ok rs
  | some v =>
      match jsParseInt v with
      | none => .error (msgNum "max_length")
      | some n => if n < 0 then .error (msgNum "max_length") else .ok (rs.filter (maxP n))

def filtWC (o : Option String) (rs : List Record) : Except String (List Record) :=
  match o with
  | none => .ok rs
  | some v =>
      match jsParseInt v with
      | none => .error (msgNum "word_count")
      | some n => if n < 0 then .error (msgNum "word_count") else .ok (rs.filter (wcIP n))

def filtChar (o : Option String) (rs : List Record) : Except String (List Record) :=
  match o with
  | none => .ok rs
  | some c =>
      if c.length > 1 then .error msgChar
      else .ok (rs.filter (ccP c))

/-- GET /strings of the primary variant (server.js lines 95-152): the
five parameter blocks in source order, each validating and then
filtering, with the first invalid parameter producing the 400. -/
def getStrings (q : QueryParams) (store : Store) : Except String (List Record) := do
  let rs ← filtPal q.is_palindrome (mapValues store)
  let rs ← filtMin q.min_length rs
  let rs ← filtMax q.max_length rs
  let rs ← filtWC q.word_count rs
  let rs ← filtChar q.contains_character rs
  return rs

/-- Claim-side parse of one parameter: `is_palindrome`. -/
def parsePal : Option String → Except String (Option Bool)
  | none => .ok none
  | some v =>
      let s := jsToLower v
      if s == "true" || s == "false" then .ok (some (s == "true")) else .error msgPal

/-- Claim-side parse of one numeric parameter (non-negative check as in
server.js). -/
def parseNumNN (name : String) : Option String → Except String (Option Int)
  | none => .ok none
  | some v =>
      match jsParseInt v with
      | none => .error (msgNum name)
      | some n => if n < 0 then .error (msgNum name) else .ok (some n)

def parseChar : Option String → Except String (Option String)
  | none => .ok none
  | some c => if c.length > 1 then .error msgChar else .ok (some c)

/-- Claim-side parse of the raw parameters into a `FilterSpec`
(validation first, filtering after), used to state the refinement of
`getStrings` to parse-then-apply. -/
def parseQuery (q : QueryParams) : Except String FilterSpec := do
  let pal ← parsePal q.is_palindrome
  let mn ← parseNumNN "min_length" q.min_length
  let mx ← parseNumNN "max_length" q.max_length
  let wc ← parseNumNN "word_count" q.word_count
  let cc ← parseChar q.contains_character
  return FilterSpec.mk pal wc mn mx cc none

/-- GET /strings of part_000 (lines 101-152): `is_palindrome` is not
validated (any value other than "true" filters for `false`), numeric
parameters are rejected only when unparseable (negative values pass),
`contains_character` must have length exactly 1. -/
def p0PalFilt (o : Option String) (rs : List Record) : List Record :=
  match o with
  | none => rs
  | some v => rs.filter (palP (v == "true"))

/-- One numeric block of part_000 (no negativity check). -/
def p0FiltNum (name : String) (o : Option String) (rs : List Record)
    (pred : Int → Record → Bool) : Except String (List Record) :=
  match o with
  | none => .ok rs
  | some v =>
      match jsParseInt v with
      | none => .error ("Invalid " ++ name)
      | some n => .ok (rs.filter (pred n))

/-- The `contains_character` block of part_000 (length exactly 1). -/
def p0FiltChar (o : Option String) (rs : List Record) : Except String (List Record) :=
  match o with
  | none => .ok rs
  | some c =>
      if c.length != 1 then .error "contains_character must be a single character"
      else .ok (rs.filter (ccP c))

/-- GET /strings of part_000 (lines 101-152): `is_palindrome` is not
validated (any value other than "true" filters for `false`), numeric
parameters are rejected only when unparseable (negative values pass),
`contains_character` must have length exactly 1. -/
def p0GetStrings (q : QueryParams) (store : Store) : Except String (List Record) := do
  let rs ← p0FiltNum "min_length" q.min_length
    (p0PalFilt q.is_palindrome (mapValues store)) minP
  let rs ← p0FiltNum "max_length" q.max_length rs maxP
  let rs ← p0FiltNum "word_count" q.word_count rs wcIP
  let rs ← p0FiltChar q.contains_character rs
  return rs

instance {ε α : Type} [DecidableEq ε] [DecidableEq α] :
    DecidableEq (Except ε α) := fun a b =>
  match a, b with
  | .ok x, .ok y =>
      if h : x = y then .isTrue (by rw [h]) else .isFalse (by intro hc; cases hc; exact h rfl)
  | .error x, .error y =>
      if h : x = y then .isTrue (by rw [h]) else .isFalse (by intro hc; cases hc; exact h rfl)
  | .ok _, .error _ => .isFalse (by intro hc; cases hc)
  | .error _, .ok _ => .isFalse (by intro hc; cases hc)

def isOkB {ε α : Type} : Except ε α → Bool
  | .ok _ => true
  | .error _ => false

/-! ## Natural-language translator (server.js lines 157-237, part_000
lines 155-202) -/

/-- A `\w` character: `[A-Za-z0-9_]`. -/
def isWordChar (c : Char) : Bool := c.isAlpha || c.isDigit || c == '_'

/-- Attempt of the regex `lit` + `\s*` + `(\d+)` at the head of `l`,
returning the captured number. -/
def numHere (lit : List Char) (l : List Char) : Option Nat :=
  if isPrefL lit l then digitsVal ((l.drop lit.length).dropWhile isWS)
  else none

/-- Leftmost match of `lit` + `\s*` + `(\d+)` (semantics of
`lowerQuery.match(/longer than\s*(\d+)/)`). -/
def findNumAfter (lit : List Char) : List Char → Option Nat
  | [] => numHere lit []
  | c :: t =>
      match numHere lit (c :: t) with
      | some n => some n
      | none => findNumAfter lit t

/-- Attempt of the regex `lit` + `(\d+)` (no whitespace skipping, as in
part_000's `/longer than (\d+)/`) at the head of `l`. -/
def numHereLit (lit : List Char) (l : List Char) : Option Nat :=
  if isPrefL lit l then digitsVal (l.drop lit.length) else none

def findNumLit (lit : List Char) : List Char → Option Nat
  | [] => numHereLit lit []
  | c :: t =>
      match numHereLit lit (c :: t) with
      | some n => some n
      | none => findNumLit lit t

def firstWordChar : List Char → Option Char
  | [] => none
  | c :: _ => if isWordChar c then some c else none

/-- Attempt of `/contain(?:ing)? the letter (\w)/` at the head of `l`
(greedy optional group first, then the backtracked alternative). -/
def letterHere (l : List Char) : Option Char :=
  let lit1 := "containing the letter ".data
  let lit2 := "contain the letter ".data
  if isPrefL lit1 l then firstWordChar (l.drop lit1.length)
  else if isPrefL lit2 l then firstWordChar (l.drop lit2.length)
  else none

def findLetter : List Char → Option Char
  | [] => none
  | c :: t =>
      match letterHere (c :: t) with
      | some r => some r
      | none => findLetter t

/-- The primary translator (server.js lines 164-204), taking the
already lower-cased query: negated palindrome has priority, "single
word", "longer than\s*N" gives `N+1`, "shorter than\s*N" gives `N-1`,
"first vowel" short-circuits the letter rule, and if nothing matched
the whole lower-cased query becomes `value_contains`. -/
def translate (lowerQuery : String) : FilterSpec :=
  let lq := lowerQuery.data
  let isNeg := hasSubL "non-palindrome".data lq || hasSubL "not palindrome".data lq
  let isPos := hasSubL "palindrome".data lq && !isNeg
  let is_pal : Option Bool :=
    if isPos then some true else if isNeg then some false else none
  let wc : Option Nat := if hasSubL "single word".data lq then some 1 else none
  let mn : Option Int := (findNumAfter "longer than".data lq).map (fun n => (n : Int) + 1)
  let mx : Option Int := (findNumAfter "shorter than".data lq).map (fun n => (n : Int) - 1)
  let cc : Option String :=
    if hasSubL "first vowel".data lq then some "a"
    else (findLetter lq).map (fun c => ⟨[c]⟩)
  if is_pal.isNone && wc.isNone && mn.isNone && mx.isNone && cc.isNone then
    FilterSpec.mk none none none none none (some lowerQuery)
  else FilterSpec.mk is_pal wc mn mx cc none

inductive NLResult
  | invalidQuery
  | ok (data : List Record) (parsed : FilterSpec)
  deriving DecidableEq

/-- GET /strings/filter-by-natural-language of the primary variant
(server.js lines 157-237).  `!query` rejects the LITERALLY empty query
with 400; a nonempty whitespace-only query returns every record with
empty parsed filters. -/
def nlQuery (query : String) (store : Store) : NLResult :=
  if query == "" then .invalidQuery
  else
    let lowerQuery := jsToLower query
    if jsTrim lowerQuery == "" then .ok (mapValues store) emptySpec
    else
      let filters := translate lowerQuery
      .ok (applyFilters filters (mapValues store)) filters

/-- The part_000 translator (lines 161-175): plain "palindrome" only
(no negation rule), "longer than N" gives `N` (no `+1`), "shorter than
N" gives `N` (no `-1`), letter rule, no first-vowel rule and no
`value_contains` fallback. -/
def p0Translate (lowerQuery : String) : FilterSpec :=
  let lq := lowerQuery.data
  FilterSpec.mk
    (if hasSubL "palindrome".data lq then some true else none)
    (if hasSubL "single word".data lq then some 1 else none)
    ((findNumLit "longer than ".data lq).map (fun n => (n : Int)))
    ((findNumLit "shorter than ".data lq).map (fun n => (n : Int)))
    ((findLetter lq).map (fun c => ⟨[c]⟩))
    none

/-- GET /strings/filter-by-natural-language of part_000 (lines
155-202): no empty-trim special case and no fallback — an unrecognized
query yields the empty filter set, which matches every record. -/
def p0NL (query : String) (store : Store) : NLResult :=
  if query == "" then .invalidQuery
  else
    let filters := p0Translate (jsToLower query)
    .ok (applyFilters filters (mapValues store)) filters

/-! ## Spec-side token counting (claim C8) -/

/-- Number of maximal whitespace-free runs; the Boolean argument says
whether the previous character was part of a token. -/
def countTokensAux : Bool → List Char → Nat
  | _, [] => 0
  | inTok, c :: t =>
      if isWS c then countTokensAux false t
      else (if inTok then 0 else 1) + countTokensAux true t

/-- Spec-side word count: the number of tokens obtained by splitting on
runs of whitespace. -/
def countTokens (l : List Char) : Nat := countTokensAux false l

/-- Sample record used by concrete counterexamples (the store is an
association list, so a record can be placed under any key). -/
def sampleRecord : Record := Record.mk "k" "a" (Props.mk 1 true 1 1 "k")

/-! ## Validity of structured query parameters (claim C4) -/

/-- Acceptance condition of the primary `is_palindrome` block. -/
def palOK : Option String → Bool
  | none => true
  | some v => jsToLower v == "true" || jsToLower v == "false"

/-- Acceptance condition of the primary numeric blocks: parseable and
non-negative (`parseInt` truncates, so "3.7" passes as 3). -/
def numOK : Option String → Bool
  | none => true
  | some v =>
      match jsParseInt v with
      | none => false
      | some n => !(n < 0)

/-- Acceptance condition of the primary `contains_character` block:
only length GREATER than one is rejected, so the empty string passes. -/
def charOK : Option String → Bool
  | none => true
  | some c => !(c.length > 1)

def validParams (q : QueryParams) : Bool :=
  palOK q.is_palindrome && (numOK q.min_length && (numOK q.max_length &&
    (numOK q.word_count && charOK q.contains_character)))

/-- Acceptance condition of part_000's numeric blocks: only
parseability is checked; negative values pass. -/
def p0NumOK : Option String → Bool
  | none => true
  | some v => (jsParseInt v).isSome

/-- Acceptance condition of part_000's `contains_character` block:
length exactly one. -/
def p0CharOK : Option String → Bool
  | none => true
  | some c => c.length == 1

def p0ValidParams (q : QueryParams) : Bool :=
  p0NumOK q.min_length && (p0NumOK q.max_length &&
    (p0NumOK q.word_count && p0CharOK q.contains_character))

/-- Validation of the embedding against the FIPS 180-2 test vector. -/
theorem sha256Hex_testVector :
    sha256Hex (utf8 "abc") =
      "ba7816bf8f01cfea414140de5dae2223b00361a396177a9cb410ff61f20015ad" := by
  decide

/-! ## General lemmas about the store and the filter chain -/

theorem mapGet_mapSet (m : Store) (k : String) (v : Record) :
    mapGet (mapSet m k v) k = some v := by
  induction m with
  | nil => simp [mapSet, mapGet, List.find?]
  | cons p t ih =>
      obtain ⟨k', v'⟩ := p
      by_cases h : k' == k
      · simp [mapSet, h, mapGet, List.find?]
      · simp only [mapSet, h, if_false, Bool.false_eq_true]
        simpa [mapGet, List.find?, h] using ih

theorem mapHas_iff {m : Store} {k : String} : mapHas m k = true ↔ k ∈ mapKeys m := by
  simp only [mapHas, mapKeys, List.any_eq_true, List.mem_map, beq_iff_eq]

theorem mapKeys_mapSet (m : Store) (k : String) (v : Record) :
    mapKeys (mapSet m k v) =
      if mapHas m k then mapKeys m else mapKeys m ++ [k] := by
  induction m with
  | nil => simp [mapSet, mapKeys, mapHas]
  | cons p t ih =>
      obtain ⟨k', v'⟩ := p
      cases hk : (k' == k) with
      | true =>
          have hkk : k' = k := eq_of_beq hk
          subst hkk
          simp [mapSet, mapKeys, mapHas]
      | false =>
          have hm : mapHas ((k', v') :: t) k = mapHas t k := by simp [mapHas, hk]
          have hs : mapSet ((k', v') :: t) k v = (k', v') :: mapSet t k v := by
            simp [mapSet, hk]
          have hmk : ∀ (kk : String) (vv : Record) (l : Store),
              mapKeys ((kk, vv) :: l) = kk :: mapKeys l := fun _ _ _ => rfl
          rw [hs, hmk, hm, ih]
          cases h2 : mapHas t k <;> simp [hmk]

theorem nodup_mapKeys_mapSet (m : Store) (k : String) (v : Record)
    (h : (mapKeys m).Nodup) : (mapKeys (mapSet m k v)).Nodup := by
  rw [mapKeys_mapSet]
  by_cases hm : mapHas m k
  · simpa [hm] using h
  · have hk : k ∉ mapKeys m := fun hmem => hm (mapHas_iff.mpr hmem)
    simp only [hm, if_false, Bool.false_eq_true]
    simpa [List.nodup_append] using ⟨h, hk⟩

theorem optFilt_eq {α : Type} (rs : List Record) (o : Option α)
    (p : α → Record → Bool) : optFilt rs o p = rs.filter (fun r => optP o p r) := by
  cases o <;> simp [optFilt, optP]

theorem optFilt_comm {α β : Type} (rs : List Record) (o1 : Option α)
    (p1 : α → Record → Bool) (o2 : Option β) (p2 : β → Record → Bool) :
    optFilt (optFilt rs o1 p1) o2 p2 = optFilt (optFilt rs o2 p2) o1 p1 := by
  cases o1 with
  | none => rfl
  | some a =>
      cases o2 with
      | none => rfl
      | some b =>
          simp only [optFilt, List.filter_filter]
          exact List.filter_congr fun x _ => Bool.and_comm ..

theorem applyFilters_eq (f : FilterSpec) (rs : List Record) :
    applyFilters f rs = rs.filter (matchesSpecA f) := by
  simp only [applyFilters, optFilt_eq, List.filter_filter]
  exact List.filter_congr fun r _ => by
    simp [matchesSpecA, Bool.and_comm, Bool.and_left_comm, Bool.and_assoc]

/-! ## Word-count lemmas -/

theorem splitWSAux_length (l : List Char) :
    ∀ acc : List Char, (splitWSAux l acc).length =
      countTokensAux (!acc.isEmpty) l + (if acc.isEmpty then 0 else 1) := by
  induction l with
  | nil =>
      intro acc
      cases acc <;> simp [splitWSAux, countTokensAux]
  | cons c t ih =>
      intro acc
      cases hc : isWS c with
      | true =>
          cases acc with
          | nil => simpa [splitWSAux, hc, countTokensAux] using ih []
          | cons a as => simpa [splitWSAux, hc, countTokensAux] using ih []
      | false =>
          cases acc with
          | nil =>
              have h1 := ih [c]
              simp [splitWSAux, hc, countTokensAux] at h1 ⊢
              omega
          | cons a as =>
              have h1 := ih (c :: a :: as)
              simp [splitWSAux, hc, countTokensAux] at h1 ⊢
              omega

theorem wordCount_eq (s : String) : wordCount s = countTokens (jsTrim s).data := by
  unfold wordCount countTokens
  cases h : (jsTrim s == "") with
  | true =>
      have he : jsTrim s = "" := eq_of_beq h
      simp [he, countTokensAux]
  | false =>
      have h1 := splitWSAux_length (jsTrim s).data []
      simp [splitWS, h1]

/-! ## Stage lemmas: GET /strings refines parse-then-filter -/

theorem filtPal_eq (o : Option String) (rs : List Record) :
    filtPal o rs = (parsePal o).map (fun ob => optFilt rs ob palP) := by
  cases o with
  | none => rfl
  | some v =>
      simp only [filtPal, parsePal]
      split <;> simp [Except.map, optFilt]

theorem filtMin_eq (o : Option String) (rs : List Record) :
    filtMin o rs = (parseNumNN "min_length" o).map (fun om => optFilt rs om minP) := by
  cases o with
  | none => rfl
  | some v =>
      simp only [filtMin, parseNumNN]
      cases jsParseInt v with
      | none => simp [Except.map]
      | some n => by_cases hn : n < 0 <;> simp [hn, Except.map, optFilt]

theorem filtMax_eq (o : Option String) (rs : List Record) :
    filtMax o rs = (parseNumNN "max_length" o).map (fun om => optFilt rs om maxP) := by
  cases o with
  | none => rfl
  | some v =>
      simp only [filtMax, parseNumNN]
      cases jsParseInt v with
      | none => simp [Except.map]
      | some n => by_cases hn : n < 0 <;> simp [hn, Except.map, optFilt]

theorem filtWC_eq (o : Option String) (rs : List Record) :
    filtWC o rs = (parseNumNN "word_count" o).map (fun om => optFilt rs om wcIP) := by
  cases o with
  | none => rfl
  | some v =>
      simp only [filtWC, parseNumNN]
      cases jsParseInt v with
      | none => simp [Except.map]
      | some n => by_cases hn : n < 0 <;> simp [hn, Except.map, optFilt]

theorem filtChar_eq (o : Option String) (rs : List Record) :
    filtChar o rs = (parseChar o).map (fun oc => optFilt rs oc ccP) := by
  cases o with
  | none => rfl
  | some c =>
      simp only [filtChar, parseChar]
      split <;> simp [Except.map, optFilt]

theorem applyFilters_reorder (pal : Option Bool) (wc mn mx : Option Int)
    (cc : Option String) (rs : List Record) :
    applyFilters (FilterSpec.mk pal wc mn mx cc none) rs =
      optFilt (optFilt (optFilt (optFilt (optFilt rs pal palP) mn minP) mx maxP)
        wc wcIP) cc ccP := by
  show optFilt (optFilt (optFilt (optFilt (optFilt (optFilt rs pal palP)
    wc wcIP) mn minP) mx maxP) cc ccP) none vcP = _
  rw [show ∀ l : List Record, optFilt l (none : Option String) vcP = l from fun _ => rfl]
  rw [optFilt_comm _ wc wcIP mn minP, optFilt_comm _ wc wcIP mx maxP]

/-- GET /strings of the primary variant equals: parse all parameters
(reporting the first invalid one), then apply the parsed spec as one
conjunction over the snapshot. -/
theorem getStrings_refines (q : QueryParams) (store : Store) :
    getStrings q store =
      (parseQuery q).map (fun f => applyFilters f (mapValues store)) := by
  unfold getStrings parseQuery
  rw [filtPal_eq]
  cases parsePal q.is_palindrome with
  | error e => simp [Except.map, Except.bind, bind]
  | ok pal =>
      simp only [Except.map, Except.bind, bind]
      rw [filtMin_eq]
      cases parseNumNN "min_length" q.min_length with
      | error e => simp [Except.map]
      | ok mn =>
          simp only [Except.map]
          rw [filtMax_eq]
          cases parseNumNN "max_length" q.max_length with
          | error e => simp [Except.map]
          | ok mx =>
              simp only [Except.map]
              rw [filtWC_eq]
              cases parseNumNN "word_count" q.word_count with
              | error e => simp [Except.map]
              | ok wc =>
                  simp only [Except.map]
                  rw [filtChar_eq]
                  cases parseChar q.contains_character with
                  | error e => simp [Except.map]
                  | ok cc => simp [Except.map, pure, Except.pure, applyFilters_reorder]

theorem isOkB_map {ε α β : Type} (f : α → β) (x : Except ε α) :
    isOkB (Except.map f x) = isOkB x := by
  cases x <;> rfl

theorem palOK_eq (o : Option String) : palOK o = isOkB (parsePal o) := by
  cases o with
  | none => rfl
  | some v =>
      simp only [palOK, parsePal]
      split <;> simp_all [isOkB]

theorem numOK_eq (name : String) (o : Option String) :
    numOK o = isOkB (parseNumNN name o) := by
  cases o with
  | none => rfl
  | some v =>
      simp only [numOK, parseNumNN]
      cases jsParseInt v with
      | none => rfl
      | some n => by_cases hn : n < 0 <;> simp [hn, isOkB]

theorem charOK_eq (o : Option String) : charOK o = isOkB (parseChar o) := by
  cases o with
  | none => rfl
  | some c =>
      simp only [charOK, parseChar]
      split <;> simp_all [isOkB]

/-! ## Claim C1 -/

/-- Claim C1, counterexample: in the primary `analyzeString`
(server.js lines 34-62) the id is the SHA-256 of the value as given,
with no case folding, so the case-variants "Ab" and "ab" (equal after
trimming and lower-casing) receive different ids. -/
theorem C1_counterexample :
    jsToLower (jsTrim "Ab") = jsToLower (jsTrim "ab") ∧
      (analyzeString "Ab").id ≠ (analyzeString "ab").id := by
  constructor
  · decide
  · decide

/-- Claim C1, amended: in the part_000 variant the store key is the
digest of the trimmed, case-folded value, so two values equal after
trimming and case folding receive the same id, and a Fetch of a
case-variant of a freshly inserted value returns the stored record. -/
theorem C1_amended (s t : String) (store : Store)
    (hs : s ≠ "") (ht : t ≠ "")
    (hnorm : jsToLower (jsTrim s) = jsToLower (jsTrim t))
    (habs : mapHas store (p0Key s) = false) :
    p0Key t = p0Key s ∧
      p0Get t ((p0Post (.str s) store).2) = .found (p0Analyze s) := by
  have hkey : p0Key t = p0Key s := by
    unfold p0Key
    rw [hnorm]
  have hsb : (s == "") = false := by
    cases h : (s == "") with
    | true => exact absurd (eq_of_beq h) hs
    | false => rfl
  have htb : (t == "") = false := by
    cases h : (t == "") with
    | true => exact absurd (eq_of_beq h) ht
    | false => rfl
  have habs' : mapHas store (p0Analyze s).id = false := habs
  have hpost : p0Post (.str s) store =
      (.created (p0Analyze s), mapSet store (p0Key s) (p0Analyze s)) := by
    simp [p0Post, hsb, habs']
    rfl
  refine ⟨hkey, ?_⟩
  rw [hpost]
  simp [p0Get, htb, hkey, mapGet_mapSet]

/-- Claim C1, witness for the amended theorem at a concrete input. -/
theorem C1_witness :
    p0Key " AB " = p0Key "ab" ∧
      p0Get " AB " ((p0Post (.str "ab") []).2) = .found (p0Analyze "ab") :=
  C1_amended "ab" " AB " [] (by decide) (by decide) (by decide) rfl

/-! ## Claim C2 -/

/-- Claim C2, counterexample: the second server.js variant (lines
361-372) has no conflict check: re-submitting a value whose id is
already stored succeeds with Created instead of failing with
Conflict. -/
theorem C2_counterexample :
    mapHas ((v2Post (.str "ab") []).2) (v2AnalyzeString "ab").id = true ∧
      isConflict (v2Post (.str "ab") ((v2Post (.str "ab") []).2)).1 = false ∧
      (v2Post (.str "ab") ((v2Post (.str "ab") []).2)).1
        = .created (v2AnalyzeString "ab") := by
  refine ⟨by decide, by decide, by decide⟩

/-- Claim C2, amended: the PRIMARY POST (server.js lines 65-91) behaves
as the claim states — present id gives Conflict leaving the store
unchanged, absent id stores the record — and `Map.set` keeps at most
one record per id. -/
theorem C2_amended (v : String) (store : Store) (hv : jsTrim v ≠ "") :
    (mapHas store (analyzeString (jsTrim v)).id = true →
        postStrings (.str v) store =
          (.conflict "String already exists in the system.", store)) ∧
      (mapHas store (analyzeString (jsTrim v)).id = false →
        postStrings (.str v) store =
          (.created (analyzeString (jsTrim v)),
            mapSet store (analyzeString (jsTrim v)).id (analyzeString (jsTrim v)))) ∧
      ((mapKeys store).Nodup → (mapKeys (postStrings (.str v) store).2).Nodup) := by
  have hvb : (jsTrim v == "") = false := by
    cases h : (jsTrim v == "") with
    | true => exact absurd (eq_of_beq h) hv
    | false => rfl
  refine ⟨?_, ?_, ?_⟩
  · intro h
    simp [postStrings, hvb, h]
  · intro h
    simp [postStrings, hvb, h]
  · intro hnd
    cases h : mapHas store (analyzeString (jsTrim v)).id with
    | true => simpa [postStrings, hvb, h] using hnd
    | false =>
        simpa [postStrings, hvb, h] using
          nodup_mapKeys_mapSet store (analyzeString (jsTrim v)).id
            (analyzeString (jsTrim v)) hnd

/-- Claim C2, witness for the amended theorem at a concrete input. -/
theorem C2_witness :
    postStrings (.str "ab") [] =
      (.created (analyzeString (jsTrim "ab")),
        mapSet [] (analyzeString (jsTrim "ab")).id (analyzeString (jsTrim "ab"))) ∧
      (mapKeys (postStrings (.str "ab") []).2).Nodup :=
  ⟨(C2_amended "ab" [] (by decide)).2.1 rfl,
   (C2_amended "ab" [] (by decide)).2.2 List.nodup_nil⟩

/-! ## Claim C3 -/

/-- Claim C3, counterexample: the `value_contains` stage (server.js
line 225) matches the needle AS GIVEN against the lower-cased value, so
for the spec with `value_contains = "A"` the record "a" satisfies the
claimed case-insensitive conjunction but the engine drops it. -/
theorem C3_counterexample :
    matchesSpec (FilterSpec.mk none none none none none (some "A")) sampleRecord = true ∧
      applyFilters (FilterSpec.mk none none none none none (some "A")) [sampleRecord]
        = [] := by
  decide

/-- Claim C3, amended: the filter chain returns exactly the records
satisfying the conjunction of the present predicates in input order
(inclusive bounds, exact word count, case-insensitive
`contains_character`), with `value_contains` matched as given against
the lower-cased value; the structured GET endpoint refines
parse-then-apply; and the `minLength = maxLength = 5` spec selects
exactly the records of length 5. -/
theorem C3_amended :
    (∀ (f : FilterSpec) (rs : List Record),
        applyFilters f rs = rs.filter (matchesSpecA f)) ∧
      (∀ (f : FilterSpec) (rs : List Record), (applyFilters f rs).Sublist rs) ∧
      (∀ (q : QueryParams) (store : Store),
        getStrings q store =
          (parseQuery q).map (fun f => applyFilters f (mapValues store))) ∧
      (∀ rs : List Record,
        applyFilters (FilterSpec.mk none none (some 5) (some 5) none none) rs =
          rs.filter (fun r => r.properties.length == 5)) := by
  refine ⟨applyFilters_eq, ?_, getStrings_refines, fun rs => ?_⟩
  · intro f rs
    rw [applyFilters_eq]
    exact List.filter_sublist rs
  · rw [applyFilters_eq]
    refine List.filter_congr fun r _ => ?_
    rw [Bool.eq_iff_iff]
    simp [matchesSpecA, optP, minP, maxP]
    omega

/-! ## Claim C4 -/

/-- Claim C4, counterexample: the primary endpoint accepts the empty
`contains_character` (length 0, not exactly one) and the non-integer
"3.7" (truncated by `parseInt` to 3); the part_000 endpoint accepts the
negative "-5". -/
theorem C4_counterexample :
    getStrings (QueryParams.mk none none none none (some "")) [] = .ok [] ∧
      ("" : String).length ≠ 1 ∧
      getStrings (QueryParams.mk none (some "3.7") none none none) [] = .ok [] ∧
      jsParseInt "3.7" = some 3 ∧
      p0GetStrings (QueryParams.mk none (some "-5") none none none) [] = .ok [] ∧
      jsParseInt "-5" = some (-5) := by
  decide

/-- Claim C4, amended: the primary endpoint rejects a parameter exactly
when it is invalid in ITS sense — `is_palindrome` not "true"/"false",
a numeric parameter unparseable or parsed negative (decimals are
truncated and accepted), `contains_character` longer than one character
(the empty string is accepted); part_000 rejects only unparseable
numerics (negatives pass) and requires `contains_character` length
exactly one (while never validating `is_palindrome`). -/
theorem p0FiltNum_isOk (name : String) (o : Option String) (rs : List Record)
    (pred : Int → Record → Bool) : isOkB (p0FiltNum name o rs pred) = p0NumOK o := by
  cases o with
  | none => rfl
  | some v =>
      simp only [p0FiltNum, p0NumOK]
      cases jsParseInt v <;> simp [isOkB]

theorem p0FiltChar_isOk (o : Option String) (rs : List Record) :
    isOkB (p0FiltChar o rs) = p0CharOK o := by
  cases o with
  | none => rfl
  | some c =>
      simp only [p0FiltChar, p0CharOK]
      by_cases hc : c.length = 1 <;> simp [hc, isOkB]

theorem C4_amended (q : QueryParams) (store : Store) :
    isOkB (getStrings q store) = validParams q ∧
      isOkB (p0GetStrings q store) = p0ValidParams q := by
  constructor
  · rw [getStrings_refines, isOkB_map]
    simp only [validParams, palOK_eq, numOK_eq "min_length" q.min_length,
      numOK_eq "max_length" q.max_length, numOK_eq "word_count" q.word_count,
      charOK_eq, parseQuery]
    cases parsePal q.is_palindrome <;>
      cases parseNumNN "min_length" q.min_length <;>
        cases parseNumNN "max_length" q.max_length <;>
          cases parseNumNN "word_count" q.word_count <;>
            cases parseChar q.contains_character <;>
              simp [bind, Except.bind, pure, Except.pure, isOkB]
  · have h1 := p0FiltNum_isOk "min_length" q.min_length
      (p0PalFilt q.is_palindrome (mapValues store)) minP
    unfold p0GetStrings
    cases hm1 : p0FiltNum "min_length" q.min_length
        (p0PalFilt q.is_palindrome (mapValues store)) minP with
    | error e =>
        rw [hm1] at h1
        simp [bind, Except.bind, isOkB, p0ValidParams, ← h1]
    | ok rs1 =>
        rw [hm1] at h1
        have h2 := p0FiltNum_isOk "max_length" q.max_length rs1 maxP
        cases hm2 : p0FiltNum "max_length" q.max_length rs1 maxP with
        | error e =>
            rw [hm2] at h2
            simp [bind, Except.bind, isOkB, p0ValidParams, hm2, ← h1, ← h2]
        | ok rs2 =>
            rw [hm2] at h2
            have h3 := p0FiltNum_isOk "word_count" q.word_count rs2 wcIP
            cases hm3 : p0FiltNum "word_count" q.word_count rs2 wcIP with
            | error e =>
                rw [hm3] at h3
                simp [bind, Except.bind, isOkB, p0ValidParams, hm2, hm3, ← h1, ← h2, ← h3]
            | ok rs3 =>
                rw [hm3] at h3
                have h4 := p0FiltChar_isOk q.contains_character rs3
                cases hm4 : p0FiltChar q.contains_character rs3 with
                | error e =>
                    rw [hm4] at h4
                    simp [bind, Except.bind, isOkB, p0ValidParams, pure, Except.pure,
                      hm2, hm3, hm4, ← h1, ← h2, ← h3, ← h4]
                | ok rs4 =>
                    rw [hm4] at h4
                    simp [bind, Except.bind, isOkB, p0ValidParams, pure, Except.pure,
                      hm2, hm3, hm4, ← h1, ← h2, ← h3, ← h4]

/-! ## Claim C5 -/

/-- Claim C5, counterexample: the part_000 translator (lines 164-166)
has no negation rule, so "non-palindrome strings" — which contains the
substring "palindrome" — sets `is_palindrome` to TRUE, not false. -/
theorem C5_counterexample :
    (p0Translate "non-palindrome strings").is_palindrome ≠ some false ∧
      (p0Translate "non-palindrome strings").is_palindrome = some true := by
  decide

/-- Claim C5, amended: in the PRIMARY translator (server.js lines
176-181) a negated palindrome phrase sets `isPalindrome = false` with
priority over the plain rule, and the plain "palindrome" phrase sets it
to true only when not negated. -/
theorem C5_amended (q : String) :
    ((hasSubL "non-palindrome".data (jsToLower q).data
          || hasSubL "not palindrome".data (jsToLower q).data) = true →
        (translate (jsToLower q)).is_palindrome = some false) ∧
      (hasSubL "palindrome".data (jsToLower q).data = true →
        (hasSubL "non-palindrome".data (jsToLower q).data
          || hasSubL "not palindrome".data (jsToLower q).data) = false →
        (translate (jsToLower q)).is_palindrome = some true) := by
  constructor
  · intro h
    simp [translate, h]
  · intro hp hn
    simp [translate, hp, hn]

/-- Claim C5, witness for the amended theorem at concrete inputs. -/
theorem C5_witness :
    (translate (jsToLower "non-palindrome strings")).is_palindrome = some false ∧
      (translate (jsToLower "palindrome words")).is_palindrome = some true :=
  ⟨(C5_amended "non-palindrome strings").1 (by decide),
   (C5_amended "palindrome words").2 (by decide) (by decide)⟩

/-! ## Claim C6 -/

/-- Claim C6, counterexample: the part_000 translator (lines 168-169)
sets `min_length = N`, not `N + 1`: translate("strings longer than 3")
yields minLength 3 there, not 4. -/
theorem C6_counterexample :
    (p0Translate "strings longer than 3").min_length ≠ some 4 ∧
      (p0Translate "strings longer than 3").min_length = some 3 := by
  decide

/-- Claim C6, amended: in the PRIMARY translator (server.js lines
186-191) a "longer than N" match sets `minLength = N + 1` and a
"shorter than N" match sets `maxLength = N - 1` (which is -1 when N is
0). -/
theorem C6_amended (q : String) (n : Nat) :
    (findNumAfter "longer than".data (jsToLower q).data = some n →
        (translate (jsToLower q)).min_length = some ((n : Int) + 1)) ∧
      (findNumAfter "shorter than".data (jsToLower q).data = some n →
        (translate (jsToLower q)).max_length = some ((n : Int) - 1)) := by
  constructor
  · intro h
    simp [translate, h]
  · intro h
    simp [translate, h]

/-- Claim C6, witness for the amended theorem at a concrete input. -/
theorem C6_witness :
    (translate (jsToLower "strings longer than 3 but shorter than 9")).min_length
        = some ((3 : Nat) + 1 : Int) ∧
      (translate (jsToLower "strings longer than 3 but shorter than 9")).max_length
        = some ((9 : Nat) - 1 : Int) :=
  ⟨(C6_amended "strings longer than 3 but shorter than 9" 3).1 (by decide),
   (C6_amended "strings longer than 3 but shorter than 9" 9).2 (by decide)⟩

/-! ## Claim C7 -/

/-- Claim C7, counterexample: the LITERALLY empty query is rejected by
the `!query` guard (server.js lines 160-162) with a 400, it does not
produce the empty FilterSpec matching everything. -/
theorem C7_counterexample :
    nlQuery "" [("k", sampleRecord)] = .invalidQuery ∧
      NLResult.invalidQuery ≠
        .ok (mapValues [("k", sampleRecord)]) emptySpec := by
  decide

/-- Claim C7, amended: every NONEMPTY whitespace-only query yields all
stored records with the empty parsed FilterSpec (server.js lines
168-174); the empty query itself is rejected as invalid input. -/
theorem C7_amended (q : String) (store : Store) (h0 : q ≠ "")
    (hw : jsTrim (jsToLower q) = "") :
    nlQuery q store = .ok (mapValues store) emptySpec := by
  have hb : (q == "") = false := by
    cases h : (q == "") with
    | true => exact absurd (eq_of_beq h) h0
    | false => rfl
  simp [nlQuery, hb, hw]

/-- Claim C7, witness for the amended theorem at a concrete input. -/
theorem C7_witness :
    nlQuery " " [("k", sampleRecord)]
      = .ok (mapValues [("k", sampleRecord)]) emptySpec :=
  C7_amended " " [("k", sampleRecord)] (by decide) (by decide)

/-! ## Claim C9 -/

/-- Claim C9, counterexample: (a) in the primary translator the query
"queries with the first vowel" matches NONE of the rules the claim
lists, yet the fallback does not fire — the undocumented first-vowel
rule sets `contains_character = "a"` and `value_contains` stays empty;
(b) the part_000 endpoint has no fallback at all: for the unmatched
query "zzz" it returns every stored record, including one whose value
does not contain "zzz". -/
theorem C9_counterexample :
    hasSubL "palindrome".data "queries with the first vowel".data = false ∧
      hasSubL "single word".data "queries with the first vowel".data = false ∧
      findNumAfter "longer than".data "queries with the first vowel".data = none ∧
      findNumAfter "shorter than".data "queries with the first vowel".data = none ∧
      findLetter "queries with the first vowel".data = none ∧
      (translate "queries with the first vowel").value_contains = none ∧
      (translate "queries with the first vowel").contains_character = some "a" ∧
      p0NL "zzz" [("k", sampleRecord)] = .ok [sampleRecord] (p0Translate "zzz") ∧
      jsIncludes (jsToLower sampleRecord.value) "zzz" = false := by
  decide

/-- Claim C9, amended: in the primary translator, whenever NO rule
matched — the palindrome phrases, "single word", "longer/shorter than
N", the letter phrase AND the first-vowel phrase — the query never
fails: the whole lower-cased query becomes `value_contains` and the
result is the records whose lower-cased value contains it. -/
theorem C9_amended (q : String) (store : Store)
    (h0 : q ≠ "")
    (hw : jsTrim (jsToLower q) ≠ "")
    (h1 : hasSubL "non-palindrome".data (jsToLower q).data = false)
    (h2 : hasSubL "not palindrome".data (jsToLower q).data = false)
    (h3 : hasSubL "palindrome".data (jsToLower q).data = false)
    (h4 : hasSubL "single word".data (jsToLower q).data = false)
    (h5 : findNumAfter "longer than".data (jsToLower q).data = none)
    (h6 : findNumAfter "shorter than".data (jsToLower q).data = none)
    (h7 : hasSubL "first vowel".data (jsToLower q).data = false)
    (h8 : findLetter (jsToLower q).data = none) :
    nlQuery q store =
      .ok ((mapValues store).filter (vcP (jsToLower q)))
        (FilterSpec.mk none none none none none (some (jsToLower q))) := by
  have hb : (q == "") = false := by
    cases h : (q == "") with
    | true => exact absurd (eq_of_beq h) h0
    | false => rfl
  have hwb : (jsTrim (jsToLower q) == "") = false := by
    cases h : (jsTrim (jsToLower q) == "") with
    | true => exact absurd (eq_of_beq h) hw
    | false => rfl
  simp [nlQuery, hb, hwb, translate, h1, h2, h3, h4, h5, h6, h7, h8,
    applyFilters, optFilt]

/-- Claim C9, witness for the amended theorem at a concrete input. -/
theorem C9_witness :
    nlQuery "zzzq" [("k", sampleRecord)] =
      .ok ((mapValues [("k", sampleRecord)]).filter (vcP (jsToLower "zzzq")))
        (FilterSpec.mk none none none none none (some (jsToLower "zzzq"))) :=
  C9_amended "zzzq" [("k", sampleRecord)] (by decide) (by decide) (by decide)
    (by decide) (by decide) (by decide) (by decide) (by decide) (by decide) (by decide)

/-! ## Claim C10 -/

/-- Claim C10 (implicit, confirmed): whenever the lower-cased query
contains "first vowel", the primary translator sets
`contains_character = "a"` (server.js lines 194-195), and the letter
rule in the `else` branch is never consulted. -/
theorem C10_main (q : String)
    (h : hasSubL "first vowel".data (jsToLower q).data = true) :
    (translate (jsToLower q)).contains_character = some "a" := by
  simp [translate, h]

/-- Claim C10, witness: a query naming both the first-vowel phrase and
the letter z still yields "a" — the letter rule would have captured
'z'. -/
theorem C10_witness :
    (translate (jsToLower "first vowel containing the letter z")).contains_character
        = some "a" ∧
      findLetter (jsToLower "first vowel containing the letter z").data = some 'z' :=
  ⟨C10_main "first vowel containing the letter z" (by decide), by decide⟩

/-! ## Claim C8 -/

/-- Claim C8, counterexample: part_000 line 61 computes
`cleaned.split(/\s+/).length` without the empty guard, so the
whitespace-only input " " (trimmed to "") gets word count 1, not 0. -/
theorem C8_counterexample :
    ¬((p0Analyze " ").properties.word_count = 0) ∧
      (p0Analyze " ").properties.word_count = 1 := by
  decide

/-- Claim C8, amended: in the primary `analyzeString` (server.js line
41) the word count equals the number of maximal whitespace-free runs of
the trimmed value for EVERY input, the empty/whitespace-only value
yields 0, and "one two  three" yields 3; part_000's analyzer deviates
only on the empty trimmed value (counterexample). -/
theorem C8_amended :
    (∀ s : String,
        (analyzeString s).properties.word_count = countTokens (jsTrim s).data) ∧
      (analyzeString "one two  three").properties.word_count = 3 ∧
      jsTrim "   " = "" ∧
      (analyzeString "   ").properties.word_count = 0 := by
  refine ⟨fun s => wordCount_eq s, by decide, by decide, by decide⟩

end StringAnalyzer
